import Mathlib

/-!
Verification of the `not-webusb` protocol core.

Shallow embedding of `src/lib.rs`, `src/ctaphid.rs` and `src/u2f.rs`.
Bytes are modelled as `Nat` (values kept below 256 by the operations that
matter); byte buffers are `List Nat`.  Rust slice writes that can go out of
range are modelled as `Option`-valued functions where `none` stands for the
panic of the source.  Rust indexing `m[i]` on reads is modelled with `getD`
(default 0); every theorem below only evaluates it in range.

The source snapshot is mid-refactor: `ctaphid.rs` imports
`u2f::receive_user_request` and `u2f::send_user_response`, whose definitions
are not present in `src/u2f.rs` (it still holds the older
`respond_to_message`).  Those two functions are modelled from the spec; each
such definition carries a doc comment starting with `Modelled from the spec:`.
All other definitions are translated from the source files.
-/

namespace NotWebUsbSpec

/-- Big-endian byte pair of a 16-bit value (`u16::to_be_bytes`). -/
def be16 (n : Nat) : List Nat := [n / 256 % 256, n % 256]

/-- Big-endian bytes of a 32-bit value (`u32::to_be_bytes` /
`i32::to_be_bytes` for the non-negative values that occur here). -/
def be32 (n : Nat) : List Nat :=
  [n / 2 ^ 24 % 256, n / 2 ^ 16 % 256, n / 2 ^ 8 % 256, n % 256]

/-- Zero-pad a byte list on the right up to length `n` (no-op when longer). -/
def padTo (n : Nat) (l : List Nat) : List Nat :=
  l ++ List.replicate (n - l.length) 0

/-! ## `src/u2f.rs` -/

/-- `AuthenticateControl` from `u2f.rs`. -/
inductive AuthenticateControl
  | checkOnly
  | enforceUserPresenceAndSign
  | dontEnforceUserPresenceAndSign
  | unknown (byte : Nat)
deriving DecidableEq, Repr

/-- `AuthenticateControl::decode` from `u2f.rs`. -/
def AuthenticateControl.decode (byte : Nat) : AuthenticateControl :=
  if byte = 0x07 then .checkOnly
  else if byte = 0x03 then .enforceUserPresenceAndSign
  else if byte = 0x08 then .dontEnforceUserPresenceAndSign
  else .unknown byte

/-- `U2fRequest` from `u2f.rs`. -/
inductive U2fRequest
  | register (challenge_parameter application_parameter : List Nat)
  | authenticate (control : AuthenticateControl)
      (challenge_parameter application_parameter key_handle : List Nat)
  | version
  | unknown (cla ins : Nat)
deriving DecidableEq, Repr

/-- `U2fRequest::decode` from `u2f.rs`.  The source indexes into
`message_data` and `body` directly (panicking when out of range); reads are
modelled with `getD`/`take`/`drop`, which agree with the source whenever the
APDU is well formed. -/
def U2fRequest.decode (m : List Nat) : U2fRequest :=
  let cla := m.getD 0 0
  let ins := m.getD 1 0
  let p1 := m.getD 2 0
  let len_start : Nat × Nat :=
    if m.getD 4 0 = 0 then (256 * m.getD 5 0 + m.getD 6 0, 7) else (m.getD 4 0, 5)
  let body := (m.drop len_start.2).take len_start.1
  if ins = 0x01 then
    .register (body.take 32) ((body.drop 32).take 32)
  else if ins = 0x02 then
    let key_handle_length := body.getD 64 0
    .authenticate (AuthenticateControl.decode p1) (body.take 32)
      ((body.drop 32).take 32) ((body.drop 65).take key_handle_length)
  else if ins = 0x03 then .version
  else .unknown cla ins

/-- `MessageResponseError` from `u2f.rs`. -/
inductive MessageResponseError
  | conditionsNotSatisfied
  | wrongData
  | wrongLength
  | claNotSupported
  | insNotSupported
deriving DecidableEq, Repr

/-- The discriminant values of `MessageResponseError`. -/
def MessageResponseError.val : MessageResponseError → Nat
  | .conditionsNotSatisfied => 0x6985
  | .wrongData => 0x6A80
  | .wrongLength => 0x6700
  | .claNotSupported => 0x6E00
  | .insNotSupported => 0x6D00

/-- `U2fResponse` from `u2f.rs`. -/
inductive U2fResponse
  | register (user_public_key key_handle attestation_certificate signature : List Nat)
  | authenticate (user_presence : Bool) (counter : Nat) (signature : List Nat)
  | error (e : MessageResponseError)
  | version
deriving DecidableEq, Repr

/-- `U2fResponse::encode` from `u2f.rs`, returning the written bytes (the
source writes into a fresh ring grant and returns the byte count; the grant
bytes it skips over in the `Register` arm are modelled as zeros). -/
def U2fResponse.encode : U2fResponse → List Nat
  | .register user_public_key key_handle attestation_certificate signature =>
      [5] ++ user_public_key ++ [key_handle.length % 256] ++ key_handle ++
        List.replicate (255 - key_handle.length) 0 ++ attestation_certificate ++
        signature ++ [0, 0x90, 0x00]
  | .authenticate user_presence counter signature =>
      [if user_presence then 1 else 0] ++ be32 counter ++ signature ++ [0x90, 0x00]
  | .error e => be16 e.val
  | .version => [85, 50, 70, 95, 86, 50] ++ [0x90, 0x00]

/-- `rot13` as written in `u2f.rs` (and `examples/pico/src/lib.rs`). -/
def rot13 (x : Nat) : Nat :=
  if 65 ≤ x ∧ x < 78 then x + 13
  else if 78 ≤ x ∧ x ≤ 90 then x - 13
  else if 97 ≤ x ∧ x < 110 then x + 13
  else if 110 ≤ x ∧ x ≤ 122 then x - 13
  else x

/-- The ASN.1 signature built inline in `respond_to_message` (`u2f.rs` lines
74-118): a SEQUENCE of two 0x20-byte INTEGERs, each starting with `0x7f`,
whose remaining `0x1f` bytes carry `response`, zero padded. -/
def mkAuthSignature (response : List Nat) : List Nat :=
  let w1 := min response.length 0x1f
  [0x30, 0x44, 0x02, 0x20, 0x7f] ++ padTo 0x1f (response.take 0x1f) ++
    [0x02, 0x20, 0x7f] ++ padTo 0x1f ((response.drop w1).take 0x1f)

/-- `respond_to_message` from `u2f.rs`, returning the bytes committed to the
outgoing ring. -/
def respond_to_message (message_data : List Nat) : List Nat :=
  let request := U2fRequest.decode message_data
  let response : U2fResponse :=
    match request with
    | .register _ _ =>
        .register (List.replicate 65 0) [] (List.replicate 255 0)
          (List.replicate 73 0)
    | .authenticate control _ _ key_handle =>
        match control with
        | .checkOnly => .error .conditionsNotSatisfied
        | _ => .authenticate true 0 (mkAuthSignature (key_handle.map rot13))
    | .version => .version
    | .unknown _ _ => .error .insNotSupported
  response.encode

/-! ## The missing half of `src/u2f.rs`, modelled from the spec

`src/ctaphid.rs` imports `u2f::receive_user_request` (called with the web
origin filter) and `u2f::send_user_response`; neither definition is under
`src/`.  They are modelled here from spec §4.4 and §4.6. -/

/-- Modelled from the spec: the 62 payload bytes of the two ASN.1 INTEGER
slots of one tunnelled Authenticate response (§4.4, "Payload smuggling
format").  The very first response of a response stream (`bytes_sent = 0`)
reserves the first 4 bytes for the big-endian total response length;
subsequent responses use all 62 bytes.  Unused trailing bytes are zero. -/
def streamSlots (data : List Nat) (bytes_sent : Nat) : List Nat :=
  if bytes_sent = 0 then padTo 62 (be32 data.length ++ data.take 58)
  else padTo 62 ((data.drop bytes_sent).take 62)

/-- Modelled from the spec: how many data bytes one tunnelled Authenticate
response carries (§4.4): up to 58 in the first response of a stream, up to 62
afterwards. -/
def streamChunkLen (data : List Nat) (bytes_sent : Nat) : Nat :=
  if bytes_sent = 0 then min 58 data.length
  else min 62 (data.length - bytes_sent)

/-- Modelled from the spec: the synthetic ASN.1 signature holding 62 slot
bytes (§4.4): `30 44 02 20 7F <31 bytes> 02 20 7F <31 bytes>`. -/
def streamSignature (slots : List Nat) : List Nat :=
  [0x30, 0x44, 0x02, 0x20, 0x7f] ++ slots.take 31 ++ [0x02, 0x20, 0x7f] ++
    slots.drop 31

/-- Modelled from the spec: `u2f::send_user_response` (missing from
`src/u2f.rs`; `ctaphid.rs` line 119 calls it).  Emits one complete U2F
Authenticate response to the outgoing ring smuggling the next slice of
`data`, and advances `bytes_sent` (the source takes `&mut u32`).  Returns
(committed bytes, new `bytes_sent`). -/
def send_user_response (data : List Nat) (bytes_sent : Nat) : List Nat × Nat :=
  (U2fResponse.encode (.authenticate true 0 (streamSignature (streamSlots data bytes_sent))),
    bytes_sent + streamChunkLen data bytes_sent)

/-- The ring bytes of the empty acknowledgement response
`send_user_response(&[], &mut 0, tx)` used by the transport FSM. -/
def ackResponseBytes : List Nat := (send_user_response [] 0).1

/-- Everything `u2f::receive_user_request` communicates outwards: the bytes
committed to the outgoing ring, the user-request chunk surfaced to the
transport FSM (the `Option` return value in `ctaphid.rs`), and the list of
arguments the web origin filter was invoked with, in order. -/
structure U2fReceiveOut where
  txBytes : List Nat
  chunk : Option (List Nat)
  filterCalls : List (List Nat)
deriving DecidableEq, Repr

/-- Modelled from the spec: `u2f::receive_user_request` (missing from
`src/u2f.rs`; imported and called by `ctaphid.rs` with the web origin
filter).  Per spec §4.4: CheckOnly answers status 0x6985; Enforce /
DontEnforce invoke the origin filter with the 32-byte application parameter,
and on acceptance surface the `keyHandle` bytes to the transport FSM without
emitting any U2F response, while a rejection answers a well-formed
Authenticate response with an empty signature; Version answers `U2F_V2`
`90 00`; an unsupported INS answers status 0x6D00.  The spec leaves an
unknown control byte and the legacy Register INS unspecified; they are
modelled as status 0x6985 and the placeholder Register response,
respectively (no claim depends on either). -/
def u2f_receive_user_request (web_origin_filter : List Nat → Bool)
    (request : List Nat) : U2fReceiveOut :=
  match U2fRequest.decode request with
  | .register _ _ =>
      { txBytes := U2fResponse.encode
          (.register (List.replicate 65 0) [] (List.replicate 255 0)
            (List.replicate 73 0)),
        chunk := none, filterCalls := [] }
  | .authenticate control _ application_parameter key_handle =>
      match control with
      | .checkOnly =>
          { txBytes := U2fResponse.encode (.error .conditionsNotSatisfied),
            chunk := none, filterCalls := [] }
      | .enforceUserPresenceAndSign =>
          if web_origin_filter application_parameter then
            { txBytes := [], chunk := some key_handle,
              filterCalls := [application_parameter] }
          else
            { txBytes := U2fResponse.encode (.authenticate true 0 []),
              chunk := none, filterCalls := [application_parameter] }
      | .dontEnforceUserPresenceAndSign =>
          if web_origin_filter application_parameter then
            { txBytes := [], chunk := some key_handle,
              filterCalls := [application_parameter] }
          else
            { txBytes := U2fResponse.encode (.authenticate true 0 []),
              chunk := none, filterCalls := [application_parameter] }
      | .unknown _ =>
          { txBytes := U2fResponse.encode (.error .conditionsNotSatisfied),
            chunk := none, filterCalls := [] }
  | .version =>
      { txBytes := U2fResponse.encode .version, chunk := none, filterCalls := [] }
  | .unknown _ _ =>
      { txBytes := U2fResponse.encode (.error .insNotSupported),
        chunk := none, filterCalls := [] }

/-- The stream of slot payloads produced by successive calls of
`send_user_response` after `send_response(data)`, starting from
`bytes_sent = 0` (one element per tunnelled Authenticate response; the
stream ends once `bytes_sent ≥ data.length`, after which the FSM leaves
`SendingResponse`).  `fuel` bounds the host-driven iteration. -/
def responseStreamFrom (data : List Nat) (bytes_sent : Nat) : Nat → List (List Nat)
  | 0 => []
  | fuel + 1 =>
      let slots := streamSlots data bytes_sent
      let sent := bytes_sent + streamChunkLen data bytes_sent
      if data.length ≤ sent then [slots]
      else slots :: responseStreamFrom data sent fuel

/-- The full response stream for `data`, with enough fuel to finish. -/
def responseStream (data : List Nat) : List (List Nat) :=
  responseStreamFrom data 0 (data.length + 1)

/-! ## `src/ctaphid.rs` -/

/-- `MessageType` from `ctaphid.rs`. -/
inductive MessageType
  | cbor
  | u2f
deriving DecidableEq, Repr

/-- `ContinuationState` from `ctaphid.rs`. -/
inductive ContinuationState
  | initial
  | continuation (sequence : Nat)
deriving DecidableEq, Repr

/-- `InProgressTransaction` from `ctaphid.rs`.  The 7609-byte
`request_buffer` together with `request_payload_bytes_written` is modelled as
`request_buffer : List Nat`, the list of bytes written so far (so
`request_buffer.length` is `request_payload_bytes_written`). -/
structure InProgressTransaction where
  message_type : MessageType
  cid : Nat
  request_sequence : Nat
  request_buffer : List Nat
  request_payload_size : Nat
  response_continuation_state : ContinuationState
  response_ready_to_send : Bool
  response_final_packet_is_ready_to_send : Bool
deriving DecidableEq, Repr

/-- `InProgressTransaction::new` from `ctaphid.rs`. -/
def InProgressTransaction.new (message_type : MessageType) (cid : Nat)
    (request_payload_size : Nat) : InProgressTransaction :=
  { message_type, cid, request_sequence := 0, request_buffer := [],
    request_payload_size, response_continuation_state := .initial,
    response_ready_to_send := false,
    response_final_packet_is_ready_to_send := false }

/-- The hardcoded CBOR `GetInfo` response from `ctaphid.rs` lines 96-100,
byte for byte in the source's decimal notation. -/
def get_info_response : List Nat :=
  [162, 104, 118, 101, 114, 115, 105, 111, 110, 115, 129, 102, 85, 50, 70, 95,
   86, 50, 102, 97, 97, 103, 117, 105, 100, 80, 227, 177, 118, 139, 85, 145,
   74, 215, 180, 110, 172, 199, 96, 132, 11, 62]

/-- Result of `InProgressTransaction::receive_user_request`: the updated
transaction, the ring bytes it committed, the user chunk it returned, and
the origin-filter invocations performed on its behalf. -/
structure ReceiveOut where
  trans : InProgressTransaction
  txBytes : List Nat
  chunk : Option (List Nat)
  filterCalls : List (List Nat)
deriving DecidableEq, Repr

/-- `InProgressTransaction::receive_user_request` from `ctaphid.rs` lines
55-111.  The copy
`request_buffer[written..written + data.len()].copy_from_slice(data)` panics
when it runs past the 7609-byte buffer; that panic is the `none` case. -/
def InProgressTransaction.receive_user_request
    (web_origin_filter : List Nat → Bool) (t : InProgressTransaction)
    (data : List Nat) : Option ReceiveOut :=
  if 7609 < t.request_buffer.length + data.length then none
  else
    let t' := { t with request_buffer := t.request_buffer ++ data }
    if t'.request_payload_size ≤ t'.request_buffer.length then
      let request := t'.request_buffer.take t'.request_payload_size
      match t'.message_type with
      | .cbor =>
          some { trans := t', txBytes := get_info_response, chunk := none,
                 filterCalls := [] }
      | .u2f =>
          let out := u2f_receive_user_request web_origin_filter request
          some { trans := t', txBytes := out.txBytes, chunk := out.chunk,
                 filterCalls := out.filterCalls }
    else
      some { trans := t', txBytes := [], chunk := none, filterCalls := [] }

/-- `CtapHidError` from `ctaphid.rs`. -/
inductive CtapHidError
  | invalidCommand
  | invalidLen
  | invalidSeq
  | channelBusy
  | keepAliveCancel
deriving DecidableEq, Repr

/-- The discriminant values of `CtapHidError`. -/
def CtapHidError.val : CtapHidError → Nat
  | .invalidCommand => 0x01
  | .invalidLen => 0x03
  | .invalidSeq => 0x04
  | .channelBusy => 0x06
  | .keepAliveCancel => 0x2D

/-! ## `src/lib.rs` -/

/-- `RequestHeader` from `lib.rs`. -/
inductive RequestHeader
  | initialRequest
  | finalRequest
  | needMoreResponseData
deriving DecidableEq, Repr

/-- `RequestHeader::parse` from `lib.rs`. -/
def RequestHeader.parse (byte : Nat) : Option RequestHeader :=
  if byte = 0 then some .initialRequest
  else if byte = 1 then some .needMoreResponseData
  else if byte = 2 then some .finalRequest
  else none

/-- `UserDataState` from `lib.rs`. -/
inductive UserDataState
  | receivingRequest (buf : List Nat)
  | receivedRequest (buf : List Nat)
  | sendingResponse (data : List Nat) (bytes_sent : Nat) (pending_request : Bool)
  | idle
deriving DecidableEq, Repr

/-- `UserDataState::receive_request` from `lib.rs` lines 382-452, returning
the updated state and the bytes the acknowledgement
`send_user_response(&[], &mut 0, tx)` committed to the ring.  `none` models
the source's panics (`request[0]` on an empty chunk, a header byte outside
{0,1,2}, a request arriving in `ReceivedRequest`, a non-poll header in
`SendingResponse`, and a poll header with no response pending).
`UserDataState::None` is spelled `idle` here because `none` is taken by
`Option`. -/
def UserDataState.receive_request (s : UserDataState) (request : List Nat) :
    Option (UserDataState × List Nat) :=
  match request with
  | [] => none
  | headerByte :: rest =>
      match s with
      | .receivingRequest partBuf =>
          let grown := partBuf ++ rest
          match RequestHeader.parse headerByte with
          | some .finalRequest => some (.receivedRequest grown, [])
          | some .initialRequest => some (.receivingRequest grown, ackResponseBytes)
          | some .needMoreResponseData => none
          | none => none
      | .receivedRequest _ => none
      | .sendingResponse data bytes_sent _ =>
          match RequestHeader.parse headerByte with
          | some .needMoreResponseData =>
              some (.sendingResponse data bytes_sent true, [])
          | _ => none
      | .idle =>
          match RequestHeader.parse headerByte with
          | some .finalRequest => some (.receivedRequest rest, [])
          | some .initialRequest => some (.receivingRequest rest, ackResponseBytes)
          | some .needMoreResponseData => none
          | none => none

/-- `NotWebUsb::check_pending_request` from `lib.rs` lines 339-345.  The
source takes `&self`, so it cannot change any state; the model is a pure
function of the user-data state. -/
def check_pending_request : UserDataState → Option (List Nat)
  | .receivedRequest request => some request
  | _ => none

/-- `NotWebUsb::send_response` from `lib.rs` lines 349-358; `none` models the
panic taken in every state other than `ReceivedRequest`. -/
def send_response (s : UserDataState) (message : List Nat) :
    Option UserDataState :=
  match s with
  | .receivedRequest _ => some (.sendingResponse message 0 true)
  | _ => none

/-- The protocol-relevant state of `NotWebUsb` (`lib.rs` lines 31-40): the
CID allocator, the optional in-progress transaction, and the user-data FSM.
(The USB class handle, the prepared report and the ring handles carry no
protocol state of their own and are modelled at their use sites.) -/
structure NotWebUsb where
  cid_next : Nat
  in_progress_transaction_option : Option InProgressTransaction
  user_data : UserDataState
deriving DecidableEq, Repr

/-- `NotWebUsb::new` from `lib.rs` lines 58-74: `cid_next` starts at 1. -/
def NotWebUsb.new : NotWebUsb :=
  { cid_next := 1, in_progress_transaction_option := none, user_data := .idle }

/-- `NotWebUsb::reset_state` from `lib.rs` lines 83-91: note it sets
`cid_next` to 0, not 1. -/
def NotWebUsb.reset_state (_e : NotWebUsb) : NotWebUsb :=
  { cid_next := 0, in_progress_transaction_option := none, user_data := .idle }

/-- A parsed CTAPHID request (`CtapHidRequest` in `ctaphid.rs`): the CID and
the typed payload.  Variant names follow `lib.rs` (`Message`,
`Continuation`, `CborMessage`); `ctaphid.rs`'s parser spells the first two
`MessageInitial` / `MessageContinuation` and folds `CborMessage` into a
message type field. -/
inductive CtapHidRequestTy
  | ping (report : List Nat)
  | message (length : Nat) (data : List Nat)
  | continuation (sequence : Nat) (data : List Nat)
  | init (nonce8 : List Nat)
  | cancel
  | cborMessage
  | unknown (cmd : Nat)
deriving DecidableEq, Repr

/-- `CtapHidRequest` from `ctaphid.rs`. -/
structure CtapHidRequest where
  cid : Nat
  ty : CtapHidRequestTy
deriving DecidableEq, Repr

/-- A direct CTAPHID response (`CtapHidResponseTy` in `ctaphid.rs`) as
produced by the dispatch in `poll`.  The INIT response stores the allocated
channel id numerically; the source stores `cid_next.to_be_bytes()`. -/
inductive CtapHidResponseTy
  | rawReport (report : List Nat)
  | initResp (nonce8 : List Nat) (channel_id : Nat)
  | error (code : CtapHidError)
deriving DecidableEq, Repr

/-- The outcome of dispatching one inbound report inside `NotWebUsb::poll`:
the updated engine, the direct response (if any), the bytes pushed onto the
outgoing ring, and the origin-filter invocations. -/
structure StepOut where
  engine : NotWebUsb
  direct : Option CtapHidResponseTy
  txBytes : List Nat
  filterCalls : List (List Nat)
deriving DecidableEq, Repr

/-- The request-dispatch phase of `NotWebUsb::poll` (`lib.rs` lines
112-212), one inbound parsed report.  `none` models a panic reached through
`receive_user_request` (buffer overrun) or `UserDataState::receive_request`.
`lib.rs` predates `ctaphid.rs`'s three-argument `InProgressTransaction::new`;
the `Message` arm passes `MessageType::U2f`, matching `ctaphid.rs`'s parse of
command 0x03, and the separate `CborMessage` arm is kept as in `lib.rs`. -/
def pollDispatch (web_origin_filter : List Nat → Bool) (e : NotWebUsb)
    (request : CtapHidRequest) : Option StepOut :=
  match request.ty with
  | .ping report =>
      some { engine := e, direct := some (.rawReport report), txBytes := [],
             filterCalls := [] }
  | .message length data =>
      match e.in_progress_transaction_option with
      | some _ =>
          some { engine := e, direct := some (.error .channelBusy),
                 txBytes := [], filterCalls := [] }
      | none =>
          let t := InProgressTransaction.new .u2f request.cid length
          match t.receive_user_request web_origin_filter data with
          | none => none
          | some out =>
              match out.chunk with
              | none =>
                  some { engine := { e with
                           in_progress_transaction_option := some out.trans },
                         direct := none, txBytes := out.txBytes,
                         filterCalls := out.filterCalls }
              | some chunk =>
                  match e.user_data.receive_request chunk with
                  | none => none
                  | some (ud, ackTx) =>
                      some { engine := { e with
                               in_progress_transaction_option := some out.trans,
                               user_data := ud },
                             direct := none, txBytes := out.txBytes ++ ackTx,
                             filterCalls := out.filterCalls }
  | .continuation sequence data =>
      match e.in_progress_transaction_option with
      | none => some { engine := e, direct := none, txBytes := [], filterCalls := [] }
      | some t =>
          if t.request_sequence ≠ sequence then
            some { engine := e, direct := some (.error .invalidSeq),
                   txBytes := [], filterCalls := [] }
          else
            let t := { t with request_sequence := t.request_sequence + 1 }
            if t.cid = request.cid then
              match t.receive_user_request web_origin_filter data with
              | none => none
              | some out =>
                  match out.chunk with
                  | none =>
                      some { engine := { e with
                               in_progress_transaction_option := some out.trans },
                             direct := none, txBytes := out.txBytes,
                             filterCalls := out.filterCalls }
                  | some chunk =>
                      match e.user_data.receive_request chunk with
                      | none => none
                      | some (ud, ackTx) =>
                          some { engine := { e with
                                   in_progress_transaction_option := some out.trans,
                                   user_data := ud },
                                 direct := none, txBytes := out.txBytes ++ ackTx,
                                 filterCalls := out.filterCalls }
            else
              some { engine := { e with
                       in_progress_transaction_option := some t },
                     direct := none, txBytes := [], filterCalls := [] }
  | .init nonce8 =>
      some { engine := { e with cid_next := e.cid_next + 1 },
             direct := some (.initResp nonce8 (e.cid_next + 1)), txBytes := [],
             filterCalls := [] }
  | .cancel =>
      match e.in_progress_transaction_option with
      | some _ =>
          some { engine := { e with in_progress_transaction_option := none },
                 direct := some (.error .keepAliveCancel), txBytes := [],
                 filterCalls := [] }
      | none => some { engine := e, direct := none, txBytes := [], filterCalls := [] }
  | .cborMessage =>
      some { engine := e, direct := some (.error .invalidCommand), txBytes := [],
             filterCalls := [] }
  | .unknown _ =>
      some { engine := e, direct := some (.error .invalidCommand), txBytes := [],
             filterCalls := [] }

/-- An input to the engine over time: one parsed inbound report, or a fatal
USB error (which makes `poll` call `reset_state` and return the error). -/
inductive Event
  | packet (request : CtapHidRequest)
  | usbError
deriving DecidableEq, Repr

/-- Run the dispatch over a list of events; `none` models a panic along the
way. -/
def runEngine (web_origin_filter : List Nat → Bool) (e : NotWebUsb) :
    List Event → Option NotWebUsb
  | [] => some e
  | .usbError :: evs => runEngine web_origin_filter e.reset_state evs
  | .packet r :: evs =>
      match pollDispatch web_origin_filter e r with
      | none => none
      | some out => runEngine web_origin_filter out.engine evs

/-- The channel ids assigned by INIT responses along a run (cut short at a
panic). -/
def cidTrace (web_origin_filter : List Nat → Bool) (e : NotWebUsb) :
    List Event → List Nat
  | [] => []
  | .usbError :: evs => cidTrace web_origin_filter e.reset_state evs
  | .packet r :: evs =>
      match pollDispatch web_origin_filter e r with
      | none => []
      | some out =>
          (match out.direct with
           | some (.initResp _ channel_id) => [channel_id]
           | _ => []) ++ cidTrace web_origin_filter out.engine evs

/-! ## Outbound report emission (`lib.rs` lines 214-234 and 256-332) -/

/-- The result of `UsbHidClass::write_report` as matched in `lib.rs`. -/
inductive UsbWriteResult
  | ok
  | wouldBlock
  | duplicate
  | otherError
deriving DecidableEq, Repr

/-- What a write-handling arm in `poll` does. -/
inductive WriteOutcome
  | sent
  | todoUnimplemented
  | resetAndReturnError
  | retrySamePacket
  | fatal
deriving DecidableEq, Repr

/-- The write handling for a *direct* response (`lib.rs` lines 222-234): the
`WouldBlock` and `Duplicate` arms are both a literal `todo!` (a panic). -/
def directWriteStep : UsbWriteResult → WriteOutcome
  | .wouldBlock => .todoUnimplemented
  | .duplicate => .todoUnimplemented
  | .ok => .sent
  | .otherError => .resetAndReturnError

/-- The write handling for a streamed message-response packet (`lib.rs`
lines 311-331): `WouldBlock` retries with the packet kept, `Duplicate` is a
`todo!`, and any other error is a `panic!`. -/
def streamWriteStep : UsbWriteResult → WriteOutcome
  | .wouldBlock => .retrySamePacket
  | .duplicate => .todoUnimplemented
  | .ok => .sent
  | .otherError => .fatal

/-- `CtapHeaderInitialization::encode` followed by the `Message` payload copy
(`ctaphid.rs` lines 274-292): a zero-filled 64-byte report with the CID, the
command byte (0x83 for U2F, 0x90 for CBOR), the big-endian `bcnt` and the
payload. -/
def encodeMessageInitialReport (ty : MessageType) (cid bcnt : Nat)
    (data : List Nat) : List Nat :=
  padTo 64 (be32 cid ++ [match ty with | .u2f => 0x83 | .cbor => 0x90] ++
    be16 bcnt ++ data)

/-- `CtapHeaderContinuation::encode` followed by the payload copy
(`ctaphid.rs` lines 294-307): CID, the sequence byte, the payload, zero
filled to 64 bytes. -/
def encodeContinuationReport (cid sequence : Nat) (data : List Nat) : List Nat :=
  padTo 64 (be32 cid ++ [sequence % 256] ++ data)

/-- The per-poll state of the response emission loop (`lib.rs` lines
256-332): the unread ring bytes of the message being sent, the transaction's
continuation state and gating flags, and the prepared 64-byte report. -/
structure SendState where
  message_type : MessageType
  cid : Nat
  ring : List Nat
  response_continuation_state : ContinuationState
  response_ready_to_send : Bool
  response_final_packet_is_ready_to_send : Bool
  raw_response : List Nat
deriving DecidableEq, Repr

/-- The packet-preparation half of the emission loop (`lib.rs` lines
256-309): when no prepared packet is pending and the ring is non-empty, read
the remaining bytes, cut a packet of `min(remaining, 57)` (initial) or
`min(remaining, 59)` (continuation) bytes, encode it into `raw_response`
using the **current** continuation state, advance the continuation state
(`Initial → Continuation{0}`, `Continuation{seq} → Continuation{seq+1}`),
mark the packet ready (and final when it drains the ring), and release the
consumed bytes. -/
def preparePacket (s : SendState) : SendState :=
  if s.response_ready_to_send then s
  else if s.ring.length = 0 then s
  else
    let remaining := s.ring.length
    let packetSize :=
      match s.response_continuation_state with
      | .initial => min remaining 57
      | .continuation _ => min remaining 59
    let raw :=
      match s.response_continuation_state with
      | .initial =>
          encodeMessageInitialReport s.message_type s.cid remaining
            (s.ring.take packetSize)
      | .continuation sequence =>
          encodeContinuationReport s.cid sequence (s.ring.take packetSize)
    { s with
      ring := s.ring.drop packetSize,
      response_continuation_state :=
        match s.response_continuation_state with
        | .initial => .continuation 0
        | .continuation sequence => .continuation (sequence + 1),
      response_ready_to_send := true,
      response_final_packet_is_ready_to_send := remaining = packetSize,
      raw_response := raw }

/-- The write half of the emission loop (`lib.rs` lines 311-331).  Returns
the new state and the report handed to the USB stack (on a successful
write); `none` models the `todo!` / `panic!` arms. -/
def sendWrite (s : SendState) (w : UsbWriteResult) :
    Option (SendState × Option (List Nat)) :=
  if s.response_ready_to_send then
    match w with
    | .wouldBlock => some (s, none)
    | .duplicate => none
    | .ok => some ({ s with response_ready_to_send := false }, some s.raw_response)
    | .otherError => none
  else some (s, none)

/-- One pass of the emission half of `poll`: prepare (if needed) then try to
write. -/
def sendPoll (s : SendState) (w : UsbWriteResult) :
    Option (SendState × Option (List Nat)) :=
  sendWrite (preparePacket s) w

/-- The reports emitted by repeatedly polling with successful USB writes,
until the message is fully sent (`fuel` bounds the iteration). -/
def emitAll (s : SendState) : Nat → List (List Nat)
  | 0 => []
  | fuel + 1 =>
      match sendPoll s .ok with
      | some (s', some report) => report :: emitAll s' fuel
      | some (_, none) => []
      | none => []

/-- The emission state right after a complete response of `message` bytes
was committed to the ring for a fresh transaction on `cid`. -/
def initialSendState (ty : MessageType) (cid : Nat) (message : List Nat) :
    SendState :=
  { message_type := ty, cid, ring := message,
    response_continuation_state := .initial,
    response_ready_to_send := false,
    response_final_packet_is_ready_to_send := false,
    raw_response := List.replicate 64 0 }

/-! ## Concrete inputs used by the witnesses and counterexamples -/

/-- A 71-byte short-form Authenticate APDU with control byte 0x03 and a
1-byte key handle. -/
def apduC10 : List Nat :=
  [0, 2, 3, 0] ++ [66] ++ List.replicate 32 7 ++ List.replicate 32 9 ++ [1, 65]

/-- An engine with an in-progress U2F transaction that expects sequence 0. -/
def engineC5 : NotWebUsb :=
  { cid_next := 1,
    in_progress_transaction_option := some (InProgressTransaction.new .u2f 1 200),
    user_data := .idle }

/-- A broadcast-channel INIT request with a fixed nonce. -/
def initEvent : Event := .packet ⟨0xFFFFFFFF, .init [1, 2, 3, 4, 5, 6, 7, 8]⟩

/-- Recognizes traces made only of well-formed continuation frames: the
parser (`ctaphid.rs` lines 133-137) only produces continuations with a
59-byte payload and a sequence byte with clear MSB, hence at most 127. -/
def contOnly (evs : List Event) : Bool :=
  evs.all fun ev =>
    match ev with
    | .packet { cid := _, ty := .continuation sequence data } =>
        data.length == 59 && sequence ≤ 127
    | _ => false

/-- The reachability invariant of an in-progress transaction fed by
well-formed frames: at most `57 + 59 · request_sequence` buffer bytes are
written, the sequence counter never passes 128, and (for the oversized
requests of claim C6) the advertised payload size exceeds 7609, so the
request can never complete. -/
def TransInv (e : NotWebUsb) : Prop :=
  ∀ t, e.in_progress_transaction_option = some t →
    t.request_buffer.length ≤ 57 + 59 * t.request_sequence ∧
    t.request_sequence ≤ 128 ∧ 7609 < t.request_payload_size

/-- A 72-byte short-form Authenticate APDU: control 0x03, 32-byte challenge
of 7s, 32-byte application parameter of 9s, and the 2-byte key handle
`[2, 104]` (a FinalRequest transport header followed by one data byte). -/
def apduC1 : List Nat :=
  [0, 2, 3, 0] ++ [67] ++ List.replicate 32 7 ++ List.replicate 32 9 ++
    [2, 2, 104]

/-- The transaction after the initialization frame of `apduC1` (57 of the 72
payload bytes received). -/
def tC1 : InProgressTransaction :=
  { InProgressTransaction.new .u2f 1 72 with request_buffer := apduC1.take 57 }

/-- The engine holding `tC1`, with an idle user-data FSM. -/
def eC1 : NotWebUsb :=
  { cid_next := 1, in_progress_transaction_option := some tC1,
    user_data := .idle }

/-- The continuation frame (59 bytes) completing `apduC1`. -/
def dataC1 : List Nat := padTo 59 (apduC1.drop 57)

/-! ## Helper lemmas -/

@[simp] theorem padTo_length (n : Nat) (l : List Nat) (h : l.length ≤ n) :
    (padTo n l).length = n := by
  simp [padTo]; omega

/-! ## Claim C9 -/

/-- C9: `check_pending_request()` returns `Some` with the buffered request
bytes if and only if the user-data state is `ReceivedRequest` (and, taking
`&self`, changes no state); `send_response(buf)` in state `ReceivedRequest`
moves to `SendingResponse` with `bytes_sent = 0` and
`pending_request = true`, and panics in every other state. -/
theorem c9_user_api :
    (∀ s request, check_pending_request s = some request ↔
      s = .receivedRequest request) ∧
    (∀ request buf, send_response (.receivedRequest request) buf =
      some (.sendingResponse buf 0 true)) ∧
    (∀ s buf, (∀ request, s ≠ .receivedRequest request) →
      send_response s buf = none) := by
  refine ⟨fun s request => ?_, fun request buf => rfl, fun s buf h => ?_⟩
  · cases s <;> simp [check_pending_request]
  · cases s with
    | receivedRequest r => exact absurd rfl (h r)
    | _ => rfl

theorem c9_user_api_witness :
    check_pending_request (.receivedRequest [1, 2]) = some [1, 2] ∧
    send_response (.receivedRequest [1, 2]) [3] =
      some (.sendingResponse [3] 0 true) ∧
    send_response .idle [3] = none :=
  ⟨(c9_user_api.1 (.receivedRequest [1, 2]) [1, 2]).mpr rfl,
   c9_user_api.2.1 [1, 2] [3],
   c9_user_api.2.2 .idle [3] (fun request => by simp)⟩

/-! ## Claim C10 -/

/-- C10: every Authenticate response produced by `respond_to_message` for a
non-CheckOnly Authenticate request starts with user-presence byte 1 followed
by the 4-byte big-endian counter 0; the counter is the literal `0` for every
request and every state, so it never increments. -/
theorem c10_presence_counter (m : List Nat) (c : AuthenticateControl)
    (ch app kh : List Nat)
    (hdec : U2fRequest.decode m = .authenticate c ch app kh)
    (hc : c ≠ .checkOnly) :
    (respond_to_message m).take 5 = [1, 0, 0, 0, 0] := by
  unfold respond_to_message
  rw [hdec]
  cases c with
  | checkOnly => exact absurd rfl hc
  | _ => simp [U2fResponse.encode, be32, List.take]

theorem c10_presence_counter_witness :
    (respond_to_message apduC10).take 5 = [1, 0, 0, 0, 0] :=
  c10_presence_counter apduC10 .enforceUserPresenceAndSign
    (List.replicate 32 7) (List.replicate 32 9) [65] (by decide) (by decide)

/-! ## Claim C4 -/

/-- C4 (code bug): on a USB `WouldBlock` result, the write handler for the
*streamed* message-response packet in `poll` retries keeping the prepared
packet, but the write handler for *direct* responses (PING, INIT, CANCEL and
error frames, `lib.rs` line 223) is a literal `todo!("error handling")` — a
panic — contradicting the claim that every outbound report survives
`WouldBlock` without a panic. -/
theorem c4_wouldblock_direct_panics :
    directWriteStep .wouldBlock = .todoUnimplemented ∧
    streamWriteStep .wouldBlock = .retrySamePacket :=
  ⟨rfl, rfl⟩

/-! ## Claim C3 -/

/-- C3 (amended): whenever a CBOR-typed transaction completes (all `bcnt`
payload bytes received), `receive_user_request` commits to the outgoing ring
exactly the hardcoded `GetInfo` blob of `ctaphid.rs` — which is 42 bytes
long, not 35 as the claim counts it. -/
theorem c3_cbor_getinfo_blob (web_origin_filter : List Nat → Bool)
    (t : InProgressTransaction) (data : List Nat)
    (hty : t.message_type = .cbor)
    (hroom : t.request_buffer.length + data.length ≤ 7609)
    (hcomplete : t.request_payload_size ≤ t.request_buffer.length + data.length) :
    t.receive_user_request web_origin_filter data =
      some { trans := { t with request_buffer := t.request_buffer ++ data },
             txBytes := get_info_response, chunk := none, filterCalls := [] } ∧
    get_info_response.length = 42 := by
  refine ⟨?_, rfl⟩
  unfold InProgressTransaction.receive_user_request
  rw [if_neg (by omega)]
  simp only [List.length_append]
  rw [if_pos hcomplete]
  simp [hty]

/-- C3 counterexample: a completed CBOR transaction makes the engine enqueue
a blob of 42 bytes, not 35 bytes as the claim states. -/
theorem c3_cbor_blob_counterexample :
    ((InProgressTransaction.receive_user_request (fun _ => true)
        (InProgressTransaction.new .cbor 1 1) [0]).map
      (fun o => o.txBytes.length)) = some 42 ∧
    ((InProgressTransaction.receive_user_request (fun _ => true)
        (InProgressTransaction.new .cbor 1 1) [0]).map
      (fun o => o.txBytes.length)) ≠ some 35 := by
  constructor <;> decide

theorem c3_cbor_getinfo_blob_witness :
    InProgressTransaction.receive_user_request (fun _ => true)
        (InProgressTransaction.new .cbor 1 1) [0] =
      some { trans := { (InProgressTransaction.new .cbor 1 1) with
                        request_buffer := [0] },
             txBytes := get_info_response, chunk := none, filterCalls := [] } ∧
    get_info_response.length = 42 := by
  have h := c3_cbor_getinfo_blob (fun _ => true)
    (InProgressTransaction.new .cbor 1 1) [0] rfl (by decide) (by decide)
  simpa using h

/-! ## Claim C5 -/

/-- C5 (amended): a continuation frame whose sequence byte differs from the
transaction's expected `request_sequence` makes `poll` emit an INVALID_SEQ
(0x04) error frame, but the in-progress transaction is *not* aborted: the
engine state, including the transaction, is left completely unchanged. -/
theorem c5_invalid_seq_keeps_transaction (web_origin_filter : List Nat → Bool)
    (e : NotWebUsb) (t : InProgressTransaction) (cid sequence : Nat)
    (data : List Nat)
    (ht : e.in_progress_transaction_option = some t)
    (hseq : t.request_sequence ≠ sequence) :
    pollDispatch web_origin_filter e ⟨cid, .continuation sequence data⟩ =
      some { engine := e, direct := some (.error .invalidSeq), txBytes := [],
             filterCalls := [] } := by
  unfold pollDispatch
  rw [ht]
  simp [hseq]

/-- C5 counterexample: after the INVALID_SEQ error frame the transaction is
still in progress, contradicting "the in-progress transaction is aborted". -/
theorem c5_counterexample :
    (pollDispatch (fun _ => true) engineC5
        ⟨1, .continuation 5 (List.replicate 59 0)⟩).map
      (fun o => (o.direct, o.engine.in_progress_transaction_option)) =
    some (some (.error .invalidSeq),
      some (InProgressTransaction.new .u2f 1 200)) := by
  decide

theorem c5_invalid_seq_witness :
    pollDispatch (fun _ => true) engineC5
        ⟨1, .continuation 5 (List.replicate 59 0)⟩ =
      some { engine := engineC5, direct := some (.error .invalidSeq),
             txBytes := [], filterCalls := [] } :=
  c5_invalid_seq_keeps_transaction (fun _ => true) engineC5
    (InProgressTransaction.new .u2f 1 200) 1 5 (List.replicate 59 0) rfl
    (by decide)

/-! ## Claim C7 -/

theorem cidTrace_replicate_init (web_origin_filter : List Nat → Bool) :
    ∀ (n : Nat) (e : NotWebUsb),
      cidTrace web_origin_filter e (List.replicate n initEvent) =
        List.range' (e.cid_next + 1) n := by
  intro n
  induction n with
  | zero => intro e; rfl
  | succ n ih =>
      intro e
      rw [List.replicate_succ, List.range'_succ]
      have hstep : cidTrace web_origin_filter e
          (initEvent :: List.replicate n initEvent) =
          (e.cid_next + 1) :: cidTrace web_origin_filter
            { e with cid_next := e.cid_next + 1 }
            (List.replicate n initEvent) := rfl
      rw [hstep, ih { e with cid_next := e.cid_next + 1 }]

/-- C7 (amended): INIT responses allocate CIDs by pre-incrementing the
counter, which starts at 1, so the first INIT after construction is answered
with CID 2 and each subsequent INIT with the next integer; within a run
without a fatal USB error the assigned CIDs `2, 3, …, n+1` are therefore
strictly increasing and pairwise distinct.  (After a fatal USB error
`reset_state` sets the counter to 0, so later INITs may repeat previously
assigned CIDs — see the counterexample.) -/
theorem c7_cid_allocation (web_origin_filter : List Nat → Bool) (n : Nat) :
    cidTrace web_origin_filter NotWebUsb.new (List.replicate n initEvent) =
      List.range' 2 n ∧
    (cidTrace web_origin_filter NotWebUsb.new
      (List.replicate n initEvent)).Nodup := by
  have h := cidTrace_replicate_init web_origin_filter n NotWebUsb.new
  refine ⟨h, ?_⟩
  rw [h]
  exact List.nodup_range' _ _ _ Nat.one_pos

/-- C7 counterexample: the first INIT after construction is answered with
CID 2, not 1; and across a fatal-USB-error reset (which sets the counter to
0) the assigned CIDs 2, 1, 2 repeat, contradicting "differs from every
previously assigned CID". -/
theorem c7_counterexample :
    cidTrace (fun _ => true) NotWebUsb.new [initEvent] = [2] ∧
    cidTrace (fun _ => true) NotWebUsb.new [initEvent] ≠ [1] ∧
    ¬ (cidTrace (fun _ => true) NotWebUsb.new
        [initEvent, .usbError, initEvent, initEvent]).Nodup := by
  refine ⟨by decide, by decide, by decide⟩

/-! ## Claim C6 -/

theorem contStep_preserves (web_origin_filter : List Nat → Bool)
    (e : NotWebUsb) (cid sequence : Nat) (data : List Nat)
    (hdata : data.length = 59) (hseq : sequence ≤ 127) (hinv : TransInv e) :
    ∃ out, pollDispatch web_origin_filter e
        ⟨cid, .continuation sequence data⟩ = some out ∧ TransInv out.engine := by
  obtain ⟨cn, topt, ud⟩ := e
  cases topt with
  | none =>
      exact ⟨⟨⟨cn, none, ud⟩, none, [], []⟩, by simp only [pollDispatch], hinv⟩
  | some t =>
      obtain ⟨hbuf, hseq128, hpay⟩ := hinv t rfl
      by_cases heq : t.request_sequence = sequence
      · by_cases hcid : t.cid = cid
        · refine ⟨⟨⟨cn, some { t with request_sequence := t.request_sequence + 1, request_buffer := t.request_buffer ++ data }, ud⟩, none, [], []⟩, ?_, ?_⟩
          · simp only [pollDispatch]
            rw [if_neg (not_ne_iff.mpr heq)]
            simp only [InProgressTransaction.receive_user_request]
            rw [if_pos hcid, if_neg (by omega),
              if_neg (by simp only [List.length_append]; omega)]
          · intro t' h'
            simp only [Option.some.injEq] at h'
            subst h'
            dsimp only
            refine ⟨by simp only [List.length_append]; omega, by omega, hpay⟩
        · refine ⟨⟨⟨cn, some { t with request_sequence := t.request_sequence + 1 }, ud⟩, none, [], []⟩, ?_, ?_⟩
          · simp only [pollDispatch]
            rw [if_neg (not_ne_iff.mpr heq), if_neg hcid]
          · intro t' h'
            simp only [Option.some.injEq] at h'
            subst h'
            dsimp only
            exact ⟨by omega, by omega, hpay⟩
      · refine ⟨⟨⟨cn, some t, ud⟩, some (.error .invalidSeq), [], []⟩, ?_, hinv⟩
        simp only [pollDispatch]
        rw [if_pos heq]

theorem runEngine_contOnly (web_origin_filter : List Nat → Bool) :
    ∀ (evs : List Event) (e : NotWebUsb), contOnly evs = true → TransInv e →
      ∃ e', runEngine web_origin_filter e evs = some e' ∧ TransInv e' := by
  intro evs
  induction evs with
  | nil => exact fun e _ hinv => ⟨e, rfl, hinv⟩
  | cons ev evs ih =>
      intro e hall hinv
      simp only [contOnly, List.all_cons, Bool.and_eq_true] at hall
      obtain ⟨hev, hrest⟩ := hall
      match ev with
      | .packet { cid := cid, ty := .continuation sequence data } =>
          simp only [Bool.and_eq_true, beq_iff_eq, decide_eq_true_eq] at hev
          obtain ⟨out, hout, hinv'⟩ := contStep_preserves web_origin_filter e
            cid sequence data hev.1 hev.2 hinv
          obtain ⟨e', he', hinv''⟩ := ih out.engine hrest hinv'
          refine ⟨e', ?_, hinv''⟩
          simp only [runEngine, hout]
          exact he'

/-- C6 (amended): a MSG initialization frame whose `bcnt` exceeds 7609 is
accepted *without* any error frame (the engine performs no `bcnt`
validation; `CtapHidError::InvalidLen` is declared but never constructed);
the resulting transaction can never complete, and for any run continuing
with well-formed continuation frames the engine neither panics nor ever
writes past the 7609-byte request buffer: the 7-bit sequence numbers cap the
written bytes at exactly 57 + 59·128 = 7609. -/
theorem c6_oversized_bcnt_safe (web_origin_filter : List Nat → Bool)
    (cid bcnt : Nat) (data : List Nat) (evs : List Event)
    (hb : 7609 < bcnt) (hd : data.length = 57) (hevs : contOnly evs = true) :
    (∃ out, pollDispatch web_origin_filter NotWebUsb.new
        ⟨cid, .message bcnt data⟩ = some out ∧ out.direct = none) ∧
    (∃ e', runEngine web_origin_filter NotWebUsb.new
        (.packet ⟨cid, .message bcnt data⟩ :: evs) = some e' ∧
      ∀ t, e'.in_progress_transaction_option = some t →
        t.request_buffer.length ≤ 7609) := by
  have hstep : pollDispatch web_origin_filter NotWebUsb.new
      ⟨cid, .message bcnt data⟩ =
      some { engine := { NotWebUsb.new with
               in_progress_transaction_option := some
                 { InProgressTransaction.new .u2f cid bcnt with
                   request_buffer := data } },
             direct := none, txBytes := [], filterCalls := [] } := by
    unfold pollDispatch NotWebUsb.new
    dsimp only
    unfold InProgressTransaction.receive_user_request InProgressTransaction.new
    dsimp only
    rw [if_neg (by simp; omega), if_neg (by simp; omega)]
    rfl
  refine ⟨⟨_, hstep, rfl⟩, ?_⟩
  have hinv : TransInv { NotWebUsb.new with
      in_progress_transaction_option := some
        { InProgressTransaction.new .u2f cid bcnt with
          request_buffer := data } } := by
    intro t h
    simp only [Option.some.injEq] at h
    subst h
    dsimp only [InProgressTransaction.new]
    exact ⟨by omega, by omega, hb⟩
  obtain ⟨e', he', hinv'⟩ :=
    runEngine_contOnly web_origin_filter evs _ hevs hinv
  refine ⟨e', ?_, fun t h => ?_⟩
  · simp only [runEngine, hstep]
    exact he'
  · obtain ⟨h1, h2, _⟩ := hinv' t h
    omega

/-- C6 counterexample: a MSG initialization frame with `bcnt = 7610 > 7609`
arriving at a fresh engine is answered with *no* frame at all — the claimed
error frame (command 0x3F) is never emitted. -/
theorem c6_counterexample :
    (pollDispatch (fun _ => true) NotWebUsb.new
        ⟨1, .message 7610 (List.replicate 57 0)⟩).map
      (fun o => (o.direct, o.engine.in_progress_transaction_option.isSome)) =
    some (none, true) := by
  decide

theorem c6_oversized_bcnt_witness :
    contOnly [.packet ⟨1, .continuation 0 (List.replicate 59 5)⟩,
              .packet ⟨1, .continuation 1 (List.replicate 59 6)⟩] = true ∧
    ((∃ out, pollDispatch (fun _ => true) NotWebUsb.new
        ⟨1, .message 7610 (List.replicate 57 4)⟩ = some out ∧
        out.direct = none) ∧
     (∃ e', runEngine (fun _ => true) NotWebUsb.new
        (.packet ⟨1, .message 7610 (List.replicate 57 4)⟩ ::
          [.packet ⟨1, .continuation 0 (List.replicate 59 5)⟩,
           .packet ⟨1, .continuation 1 (List.replicate 59 6)⟩]) = some e' ∧
      ∀ t, e'.in_progress_transaction_option = some t →
        t.request_buffer.length ≤ 7609)) :=
  ⟨by decide,
   c6_oversized_bcnt_safe (fun _ => true) 1 7610 (List.replicate 57 4)
     [.packet ⟨1, .continuation 0 (List.replicate 59 5)⟩,
      .packet ⟨1, .continuation 1 (List.replicate 59 6)⟩]
     (by omega) (by decide) (by decide)⟩

/-! ## Claim C8 -/

theorem encodeContinuation_getD4 (cid sequence : Nat) (data : List Nat) :
    (encodeContinuationReport cid sequence data).getD 4 0 = sequence % 256 := by
  simp [encodeContinuationReport, padTo, be32]

theorem encodeInitial_getD4 (ty : MessageType) (cid bcnt : Nat)
    (data : List Nat) :
    0x80 ≤ (encodeMessageInitialReport ty cid bcnt data).getD 4 0 := by
  cases ty <;> simp [encodeMessageInitialReport, padTo, be32, be16]

theorem emitAll_ring_nil (fuel : Nat) (s : SendState) (h : s.ring = [])
    (hr : s.response_ready_to_send = false) : emitAll s fuel = [] := by
  cases fuel with
  | zero => rfl
  | succ fuel => simp [emitAll, sendPoll, preparePacket, sendWrite, h, hr]

theorem emitAll_cont_step (ty : MessageType) (cid : Nat) (r : List Nat)
    (k fuel : Nat) (fr : Bool) (raw : List Nat) (hne : ¬ r.length = 0) :
    emitAll ⟨ty, cid, r, .continuation k, false, fr, raw⟩ (fuel + 1) =
      encodeContinuationReport cid k (r.take (min r.length 59)) ::
        emitAll ⟨ty, cid, r.drop (min r.length 59), .continuation (k + 1),
          false, decide (r.length = min r.length 59),
          encodeContinuationReport cid k (r.take (min r.length 59))⟩ fuel := by
  simp only [emitAll, sendPoll, preparePacket, sendWrite, hne]
  simp

theorem emitAll_cont (ty : MessageType) (cid : Nat) :
    ∀ (fuel : Nat) (r : List Nat) (k : Nat) (fr : Bool) (raw : List Nat),
      r ≠ [] → r.length + 1 ≤ fuel → r.length + 59 * k ≤ 7552 →
      ∃ n, (emitAll ⟨ty, cid, r, .continuation k, false, fr, raw⟩ fuel).map
          (fun p => p.getD 4 0) = List.range' k n := by
  intro fuel
  induction fuel with
  | zero =>
      intro r k fr raw hne hfuel hbound
      have : r.length = 0 := by omega
      exact absurd (List.length_eq_zero.mp this) hne
  | succ fuel ih =>
      intro r k fr raw hne hfuel hbound
      have hne0 : ¬ r.length = 0 := by
        simpa [List.length_eq_zero] using hne
      rw [emitAll_cont_step ty cid r k fuel fr raw hne0]
      have hk : k % 256 = k := Nat.mod_eq_of_lt (by omega)
      by_cases hle : r.length ≤ 59
      · have hmin : min r.length 59 = r.length := Nat.min_eq_left hle
        rw [hmin, List.drop_length]
        rw [emitAll_ring_nil fuel _ rfl rfl]
        refine ⟨1, ?_⟩
        simp only [List.map_cons, List.map_nil]
        rw [encodeContinuation_getD4, hk, List.range'_one]
      · have hmin : min r.length 59 = 59 := Nat.min_eq_right (by omega)
        rw [hmin]
        have hdrop : (r.drop 59) ≠ [] := by
          have : (r.drop 59).length = r.length - 59 := List.length_drop 59 r
          intro hnil
          rw [hnil] at this
          simp at this
          omega
        obtain ⟨n, hmap⟩ := ih (r.drop 59) (k + 1)
          (decide (r.length = 59)) (encodeContinuationReport cid k (r.take 59))
          hdrop (by simp [List.length_drop]; omega)
          (by simp [List.length_drop]; omega)
        refine ⟨n + 1, ?_⟩
        simp only [List.map_cons]
        rw [hmap, encodeContinuation_getD4, hk, List.range'_succ]

theorem emitAll_initial_step (ty : MessageType) (cid : Nat) (msg : List Nat)
    (fuel : Nat) (hne : ¬ msg.length = 0) :
    emitAll (initialSendState ty cid msg) (fuel + 1) =
      encodeMessageInitialReport ty cid msg.length
          (msg.take (min msg.length 57)) ::
        emitAll ⟨ty, cid, msg.drop (min msg.length 57), .continuation 0,
          false, decide (msg.length = min msg.length 57),
          encodeMessageInitialReport ty cid msg.length
            (msg.take (min msg.length 57))⟩ fuel := by
  simp only [initialSendState, emitAll, sendPoll, preparePacket, sendWrite, hne]
  simp

/-- C8: every Message response emitted over the ring starts with an
initialization frame (command byte with MSB set), and the sequence bytes of
the continuation frames that follow are exactly `0, 1, 2, …` — consecutive,
with no gaps and no repeats. -/
theorem c8_response_sequencing (ty : MessageType) (cid : Nat)
    (msg : List Nat) (hne : msg ≠ []) (hlen : msg.length ≤ 7609) :
    ∃ p ps, emitAll (initialSendState ty cid msg) (msg.length + 1) = p :: ps ∧
      0x80 ≤ p.getD 4 0 ∧
      ps.map (fun q => q.getD 4 0) = List.range ps.length := by
  have hne0 : ¬ msg.length = 0 := by simpa [List.length_eq_zero] using hne
  rw [emitAll_initial_step ty cid msg msg.length hne0]
  by_cases hle : msg.length ≤ 57
  · have hmin : min msg.length 57 = msg.length := Nat.min_eq_left hle
    rw [hmin, List.drop_length, emitAll_ring_nil msg.length _ rfl rfl]
    exact ⟨_, [], rfl, encodeInitial_getD4 ty cid msg.length _, rfl⟩
  · have hmin : min msg.length 57 = 57 := Nat.min_eq_right (by omega)
    rw [hmin]
    have hdrop : (msg.drop 57) ≠ [] := by
      have : (msg.drop 57).length = msg.length - 57 := List.length_drop 57 msg
      intro hnil
      rw [hnil] at this
      simp at this
      omega
    obtain ⟨n, hmap⟩ := emitAll_cont ty cid msg.length (msg.drop 57) 0
      (decide (msg.length = 57))
      (encodeMessageInitialReport ty cid msg.length (msg.take 57)) hdrop
      (by simp [List.length_drop]; omega) (by simp [List.length_drop]; omega)
    refine ⟨_, _, rfl, encodeInitial_getD4 ty cid msg.length _, ?_⟩
    rw [hmap]
    have hlenmap : (emitAll ⟨ty, cid, msg.drop 57, .continuation 0, false,
        decide (msg.length = 57),
        encodeMessageInitialReport ty cid msg.length (msg.take 57)⟩
          msg.length).length = n := by
      have := congrArg List.length hmap
      simpa using this
    rw [hlenmap, List.range_eq_range']

set_option maxRecDepth 8000 in
theorem c8_response_sequencing_witness :
    ∃ p ps, emitAll (initialSendState .u2f 1 (List.range 130)) 131 = p :: ps ∧
      0x80 ≤ p.getD 4 0 ∧
      ps.map (fun q => q.getD 4 0) = List.range ps.length := by
  have h := c8_response_sequencing .u2f 1 (List.range 130) (by decide)
    (by decide)
  simpa using h

/-! ## Claim C2 -/

theorem responseStreamFrom_getD_pos (data : List Nat) :
    ∀ (i fuel sent : Nat), sent ≠ 0 →
      i < (responseStreamFrom data sent fuel).length →
      (responseStreamFrom data sent fuel).getD i [] =
        padTo 62 ((data.drop (sent + 62 * i)).take 62) := by
  intro i
  induction i with
  | zero =>
      intro fuel sent hsent hlen
      cases fuel with
      | zero => simp [responseStreamFrom] at hlen
      | succ fuel =>
          by_cases hstop : data.length ≤ sent + streamChunkLen data sent <;>
            simp [responseStreamFrom, hstop, streamSlots, hsent]
  | succ i ih =>
      intro fuel sent hsent hlen
      cases fuel with
      | zero => simp [responseStreamFrom] at hlen
      | succ fuel =>
          have hchunk : streamChunkLen data sent = min 62 (data.length - sent) := by
            simp [streamChunkLen, hsent]
          by_cases hstop : data.length ≤ sent + streamChunkLen data sent
          · simp [responseStreamFrom, hstop] at hlen
          · simp only [responseStreamFrom, if_neg hstop] at hlen ⊢
            rw [hchunk] at hstop hlen ⊢
            have hc : min 62 (data.length - sent) = 62 := by omega
            rw [hc] at hlen ⊢
            simp only [List.getD_cons_succ, List.length_cons] at hlen ⊢
            have harith : sent + 62 + 62 * i = sent + 62 * (i + 1) := by ring
            rw [ih fuel (sent + 62) (by omega) (by omega), harith]

/-- C2: in the response stream produced after `send_response(data)`, the
first tunnelled Authenticate response devotes the first 4 of its 62 INTEGER
payload bytes to the big-endian total response length followed by at most 58
data bytes, while every later response of the stream starts its data at slot
byte 0 and carries up to all 62 bytes of data with no length field (the
`i`-th later response carries the data from offset `58 + 62·(i-1)`, zero
padded). -/
theorem c2_stream_layout (data : List Nat) (i : Nat)
    (h : i < (responseStream data).length) :
    (responseStream data).getD i [] =
      if i = 0 then padTo 62 (be32 data.length ++ data.take 58)
      else padTo 62 ((data.drop (58 + 62 * (i - 1))).take 62) := by
  have hchunk : streamChunkLen data 0 = min 58 data.length := by
    simp [streamChunkLen]
  cases i with
  | zero =>
      by_cases hstop : data.length ≤ streamChunkLen data 0 <;>
        simp [responseStream, responseStreamFrom, hstop, streamSlots]
  | succ i =>
      rw [if_neg (Nat.succ_ne_zero i)]
      simp only [Nat.add_sub_cancel]
      simp only [responseStream, responseStreamFrom, Nat.zero_add] at h ⊢
      rw [hchunk] at h ⊢
      by_cases hstop : data.length ≤ min 58 data.length
      · rw [if_pos hstop] at h
        simp only [List.length_cons, List.length_nil] at h
        omega
      · rw [if_neg hstop] at h ⊢
        have hc : min 58 data.length = 58 := by omega
        rw [hc] at h ⊢
        simp only [List.getD_cons_succ, List.length_cons] at h ⊢
        exact responseStreamFrom_getD_pos data i data.length 58 (by omega)
          (by omega)

set_option maxRecDepth 8000 in
theorem c2_stream_layout_witness :
    (responseStream (List.range 70)).getD 1 [] =
      padTo 62 (((List.range 70).drop 58).take 62) := by
  have h := c2_stream_layout (List.range 70) 1 (by decide)
  simpa using h

/-! ## Claim C1 -/

/-- C1: when a U2F transaction completes with an Authenticate request whose
control byte is EnforceUserPresenceAndSign (0x03) or
DontEnforceUserPresenceAndSign (0x08), the web origin filter is invoked
exactly once, with the request's 32-byte application parameter; and when the
filter accepts, the key-handle bytes are handed unmodified to the transport
FSM (`UserDataState::receive_request`) as the one chunk of user request
data, with no direct CTAPHID response and no ring bytes beyond what that FSM
itself produces. -/
theorem c1_filter_once_chunk_passthrough (web_origin_filter : List Nat → Bool)
    (e : NotWebUsb) (t : InProgressTransaction) (cid sequence : Nat)
    (data ch app kh : List Nat) (c : AuthenticateControl)
    (ht : e.in_progress_transaction_option = some t)
    (hty : t.message_type = .u2f)
    (hseq : t.request_sequence = sequence)
    (hcid : t.cid = cid)
    (hroom : t.request_buffer.length + data.length ≤ 7609)
    (hcomplete : t.request_payload_size ≤ t.request_buffer.length + data.length)
    (hdec : U2fRequest.decode
        ((t.request_buffer ++ data).take t.request_payload_size) =
      .authenticate c ch app kh)
    (hc : c = .enforceUserPresenceAndSign ∨
      c = .dontEnforceUserPresenceAndSign) :
    (∀ out, pollDispatch web_origin_filter e
        ⟨cid, .continuation sequence data⟩ = some out →
      out.filterCalls = [app]) ∧
    (web_origin_filter app = true →
      pollDispatch web_origin_filter e ⟨cid, .continuation sequence data⟩ =
        (e.user_data.receive_request kh).map (fun p =>
          { engine := { e with in_progress_transaction_option := some { t with request_sequence := t.request_sequence + 1, request_buffer := t.request_buffer ++ data }, user_data := p.1 }, direct := none, txBytes := p.2, filterCalls := [app] })) := by
  obtain ⟨cn, topt, ud⟩ := e
  simp only at ht
  subst ht
  have hstep : ∀ u2fOut,
      u2f_receive_user_request web_origin_filter
        ((t.request_buffer ++ data).take t.request_payload_size) = u2fOut →
      pollDispatch web_origin_filter ⟨cn, some t, ud⟩
          ⟨cid, .continuation sequence data⟩ =
        (match u2fOut.chunk with
         | none => some ⟨⟨cn, some { t with request_sequence := t.request_sequence + 1, request_buffer := t.request_buffer ++ data }, ud⟩, none, u2fOut.txBytes, u2fOut.filterCalls⟩
         | some chunk =>
             match ud.receive_request chunk with
             | none => none
             | some p => some ⟨⟨cn, some { t with request_sequence := t.request_sequence + 1, request_buffer := t.request_buffer ++ data }, p.1⟩, none, u2fOut.txBytes ++ p.2, u2fOut.filterCalls⟩) := by
    intro u2fOut hu
    simp only [pollDispatch]
    rw [if_neg (not_ne_iff.mpr hseq)]
    simp only [InProgressTransaction.receive_user_request]
    rw [if_pos hcid, if_neg (by omega),
      if_pos (by simp only [List.length_append]; omega)]
    simp only [hty, hu]
    cases hchunk : u2fOut.chunk with
    | none => rfl
    | some chunk =>
        simp only
        cases ud.receive_request chunk with
        | none => rfl
        | some p => rfl
  constructor
  · intro out hout
    by_cases hf : web_origin_filter app = true
    · have hu2f : u2f_receive_user_request web_origin_filter
          ((t.request_buffer ++ data).take t.request_payload_size) =
          ⟨[], some kh, [app]⟩ := by
        rcases hc with h | h <;> subst h <;>
          simp [u2f_receive_user_request, hdec, hf]
      rw [hstep _ hu2f] at hout
      simp only at hout
      cases hud : ud.receive_request kh with
      | none => rw [hud] at hout; cases hout
      | some p =>
          rw [hud] at hout
          simp only [Option.some.injEq] at hout
          rw [← hout]
    · have hf' : web_origin_filter app = false := by
        cases hfa : web_origin_filter app
        · rfl
        · exact absurd hfa hf
      have hu2f : u2f_receive_user_request web_origin_filter
          ((t.request_buffer ++ data).take t.request_payload_size) =
          ⟨U2fResponse.encode (.authenticate true 0 []), none, [app]⟩ := by
        rcases hc with h | h <;> subst h <;>
          simp [u2f_receive_user_request, hdec, hf']
      rw [hstep _ hu2f] at hout
      simp only [Option.some.injEq] at hout
      rw [← hout]
  · intro hf
    have hu2f : u2f_receive_user_request web_origin_filter
        ((t.request_buffer ++ data).take t.request_payload_size) =
        ⟨[], some kh, [app]⟩ := by
      rcases hc with h | h <;> subst h <;>
        simp [u2f_receive_user_request, hdec, hf]
    rw [hstep _ hu2f]
    simp only
    cases hud : ud.receive_request kh with
    | none => simp [hud]
    | some p => simp [hud]

theorem c1_filter_once_chunk_passthrough_witness :
    pollDispatch (fun _ => true) eC1 ⟨1, .continuation 0 dataC1⟩ =
      some { engine := { cid_next := 1, in_progress_transaction_option := some { tC1 with request_sequence := 1, request_buffer := tC1.request_buffer ++ dataC1 }, user_data := .receivedRequest [104] }, direct := none, txBytes := [], filterCalls := [List.replicate 32 9] } := by
  have h := (c1_filter_once_chunk_passthrough (fun _ => true) eC1 tC1 1 0
    dataC1 (List.replicate 32 7) (List.replicate 32 9) [2, 104]
    .enforceUserPresenceAndSign (by decide) (by decide) (by decide) (by decide)
    (by decide) (by decide) (by decide) (Or.inl rfl)).2 rfl
  rw [h]
  decide

end NotWebUsbSpec
